import Mathlib

/-!
Verification development for the Sentinel Voice Assistant backend
(`backend/app/graph.py` and `backend/app/main.py`).

The Python source is shallowly embedded: the module-level dictionaries
`_retrievers_by_thread` / `_doc_info_by_thread` become association lists from
thread ids to values, the external collaborators (PDF loader and text
splitter, embedding service, PGVector / FAISS vector stores, the Groq chat
model, langgraph's `ToolNode`, Python's `float` / `datetime` parsing) are
modelled as explicit parameters or small faithful functions, and each Python
function under scrutiny (`process_document`, `rag_tool`, `agent`'s message
preparation, `safe_tool_node`, the graph loop with its recursion limit, and
`stream_generator`) is translated into a total Lean function.
-/

namespace Sentinel

/-! ### Association-list maps: the model of Python `dict` keyed by strings -/

/-- Lookup in a string-keyed association list (Python `d.get(k)`). -/
def mapFind {α : Type} : List (String × α) → String → Option α
  | [], _ => none
  | (k, v) :: rest, key => if k = key then some v else mapFind rest key

/-- Insert-or-replace (Python `d[k] = v`). -/
def mapInsert {α : Type} : List (String × α) → String → α → List (String × α)
  | [], key, v => [(key, v)]
  | (k, w) :: rest, key, v =>
    if k = key then (k, v) :: rest else (k, w) :: mapInsert rest key v

/-- Key removal (Python `del d[k]`). -/
def mapErase {α : Type} (m : List (String × α)) (key : String) : List (String × α) :=
  m.filter (fun p => p.1 ≠ key)

/-- Lookup with default (Python `d.get(k, dflt)`). -/
def mapFindD {α : Type} (m : List (String × α)) (key : String) (dflt : α) : α :=
  (mapFind m key).getD dflt

/-! ### Data model of the Retriever Registry (`graph.py`) -/

/-- One text chunk produced by `RecursiveCharacterTextSplitter`, with the
source page recorded in its metadata. -/
structure Chunk where
  content : String
  page : Nat
deriving DecidableEq

/-- The `_current_doc_info` record stored in `_doc_info_by_thread`. -/
structure DocInfo where
  filename : String
  pages : Nat
  chunks : Nat
  path : String
  thread_id : String
deriving DecidableEq

/-- A retriever handle as created by `process_document`: either a PGVector
retriever over the named persistent collection, or the in-memory FAISS
fallback that owns its chunks directly.  `k` is the `search_kwargs` top-k. -/
inductive Retriever where
  | pg (collection : String) (k : Nat)
  | faiss (chunks : List Chunk) (k : Nat)
deriving DecidableEq

/-- The mutable registry state: the persistent PGVector collections (keyed by
collection name, living in Postgres) plus the two module-level dictionaries
`_retrievers_by_thread` and `_doc_info_by_thread`. -/
structure RagState where
  collections : List (String × List Chunk)
  retrievers : List (String × Retriever)
  docInfo : List (String × DocInfo)

/-- Fresh-process state: empty dictionaries, empty vector store. -/
def emptyRagState : RagState := ⟨[], [], []⟩

/-- Result of `PyMuPDFLoader.load` plus the splitter (external collaborators):
either a page count together with the chunk list, or a raised exception. -/
inductive Loaded where
  | ok (pages : Nat) (chunks : List Chunk)
  | err (msg : String)

/-- The chunks that ingesting `path` contributes (empty when loading raises). -/
def chunksOf (load : String → Loaded) (path : String) : List Chunk :=
  match load path with
  | .ok _ chunks => chunks
  | .err _ => []

/-- Which vector-store construction succeeds in `process_document`:
`PGVector.from_documents`, the FAISS fallback after a PGVector failure, or
neither (the outer `except` path). -/
inductive VectorEnv where
  | pg
  | faissFallback
  | bothFail
deriving DecidableEq

/-- `collection_name = f"sentinel_thread_{thread_id}"`. -/
def collName (thread_id : String) : String := "sentinel_thread_" ++ thread_id

/-- `os.path.basename` restricted to forward-slash paths. -/
def basename (p : String) : String := (p.splitOn "/").getLastD p

/-- `PGVector.from_documents` on an existing collection name: the new chunks
are added to whatever the persistent collection already holds (the call does
not pass `pre_delete_collection=True`, so nothing is deleted first). -/
def mapAppendAt (m : List (String × List Chunk)) (key : String) (l : List Chunk) :
    List (String × List Chunk) :=
  match mapFind m key with
  | some old => mapInsert m key (old ++ l)
  | none => mapInsert m key l

/-- The dictionary returned by `process_document`. -/
inductive ProcessResult where
  | success (filename : String) (info : DocInfo)
  | failure (error : String)
deriving DecidableEq

/-- The `'success'` field of the returned dictionary. -/
def ProcessResult.isSuccess : ProcessResult → Bool
  | .success _ _ => true
  | .failure _ => false

/-- `process_document(pdf_path, thread_id)` from `graph.py`.  Loading and
splitting are the external `load`; `venv` says which vector-store branch
succeeds.  On success the per-thread registries are overwritten; on any
exception the function returns `{'success': False, ...}` without touching
them. -/
def processDocument (load : String → Loaded) (venv : VectorEnv)
    (st : RagState) (pdf_path thread_id : String) : ProcessResult × RagState :=
  match load pdf_path with
  | .err e => (.failure e, st)
  | .ok pages chunks =>
    match venv with
    | .bothFail => (.failure "vector store construction failed", st)
    | .pg =>
      let name := collName thread_id
      let info : DocInfo :=
        ⟨basename pdf_path, pages, chunks.length, pdf_path, thread_id⟩
      (.success info.filename info,
       { collections := mapAppendAt st.collections name chunks,
         retrievers := mapInsert st.retrievers thread_id (.pg name 4),
         docInfo := mapInsert st.docInfo thread_id info })
    | .faissFallback =>
      let info : DocInfo :=
        ⟨basename pdf_path, pages, chunks.length, pdf_path, thread_id⟩
      (.success info.filename info,
       { st with
         retrievers := mapInsert st.retrievers thread_id (.faiss chunks 4),
         docInfo := mapInsert st.docInfo thread_id info })

/-- One call to `process_document` as it occurs in a run of the backend. -/
structure IngestEvent where
  path : String
  thread_id : String
  venv : VectorEnv

/-- A sequence of `process_document` calls starting from a given state. -/
def runIngests (load : String → Loaded) : List IngestEvent → RagState → RagState
  | [], st => st
  | e :: es, st =>
    runIngests load es (processDocument load e.venv st e.path e.thread_id).2

/-- Similarity search of the external vector store, modelled for an arbitrary
scoring function: rank the stored chunks by score and return the top `k`.
Every result is drawn from the stored chunk list. -/
def retrieveChunks (score : Chunk → Nat) (coll : List Chunk) (k : Nat) : List Chunk :=
  (coll.insertionSort (fun a b => score b ≤ score a)).take k

/-- `retriever.invoke(query)`: a PGVector retriever searches the named
persistent collection, a FAISS retriever searches its own chunks. -/
def Retriever.invoke (r : Retriever) (collections : List (String × List Chunk))
    (score : Chunk → Nat) : List Chunk :=
  match r with
  | .pg name k => retrieveChunks score (mapFindD collections name []) k
  | .faiss chunks k => retrieveChunks score chunks k

/-- The sentinel string `rag_tool` returns when no document is loaded. -/
def noDocSentinel : String :=
  "No document is currently loaded. Please upload a PDF first."

/-- One `[Excerpt i from page p]:` block of `rag_tool`'s answer. -/
def excerptBlock (i : Nat) (c : Chunk) : String :=
  "[Excerpt " ++ toString i ++ " from page " ++ toString c.page ++ "]:\n" ++
    c.content ++ "\n"

/-- The `Found n relevant sections in f:` answer of `rag_tool`. -/
def formatRagResult (filename : String) (docs : List Chunk) : String :=
  "Found " ++ toString docs.length ++ " relevant sections in " ++ filename ++
    ":\n\n" ++
    String.intercalate "\n" ((docs.take 4).enum.map fun p => excerptBlock (p.1 + 1) p.2)

/-- The documents `rag_tool` retrieves for a resolved `thread_id` before
formatting, or `none` when either per-thread dictionary has no entry (the
sentinel path).  `rank` models the embedding similarity for a query. -/
def ragRetrieveDocs (rank : String → Chunk → Nat) (st : RagState)
    (thread_id query : String) : Option (List Chunk) :=
  match mapFind st.retrievers thread_id, mapFind st.docInfo thread_id with
  | some r, some _ => some (r.invoke st.collections (rank query))
  | _, _ => none

/-- `rag_tool(query)` from `graph.py`, for a resolved `thread_id`. -/
def ragTool (rank : String → Chunk → Nat) (st : RagState)
    (thread_id query : String) : String :=
  match mapFind st.retrievers thread_id, mapFind st.docInfo thread_id with
  | some r, some info =>
    let docs := r.invoke st.collections (rank query)
    if docs = [] then
      "No relevant information found in " ++ info.filename ++ " for your query."
    else formatRagResult info.filename docs
  | _, _ => noDocSentinel

/-- Modelled from the spec: `remove(thread_id)` of the Retriever Registry
("discards the index; subsequent query returns the sentinel", spec section
4.3).  No removal operation exists in `src/`; the spec's words are embedded as
deletion of the thread's entries from both per-thread dictionaries. -/
def removeThread (st : RagState) (thread_id : String) : RagState :=
  { st with
    retrievers := mapErase st.retrievers thread_id,
    docInfo := mapErase st.docInfo thread_id }

/-! ### Messages, tool calls and the Safe Tool Executor (`safe_tool_node`) -/

/-- A JSON argument value as it appears in a tool call's `args` dict. -/
inductive JVal where
  | str (s : String)
  | num (q : Rat)
  | bool (b : Bool)
  | null
deriving DecidableEq

/-- One entry of an assistant message's `tool_calls` list. -/
structure ToolCall where
  name : String
  args : List (String × JVal)
  id : String
deriving DecidableEq

/-- Message content as found on tool messages: a plain string, a list of
blocks, or a dict. -/
inductive MContent where
  | text (s : String)
  | blocks (parts : List String)
  | obj (pairs : List (String × String))
deriving DecidableEq

/-- LangChain messages as used by the graph. -/
inductive Msg where
  | human (content : String)
  | ai (content : String) (tool_calls : List ToolCall)
  | tool (content : MContent) (tool_call_id : String)
  | system (content : String)
deriving DecidableEq

/-- Python truthiness test `not msg.content` on message content. -/
def contentFalsy : MContent → Bool
  | .text s => s = ""
  | .blocks l => l.isEmpty
  | .obj l => l.isEmpty

/-- Python `str(...)` applied to a list of strings. -/
def pyStrOfBlocks (l : List String) : String :=
  "[" ++ String.intercalate ", " (l.map (fun s => "\x27" ++ s ++ "\x27")) ++ "]"

/-- `json.dumps` applied to a string-valued dict, modelled without the
`indent=2` whitespace. -/
def pyStrOfObj (l : List (String × String)) : String :=
  "\x7b" ++
    String.intercalate ", " (l.map fun kv => "\"" ++ kv.1 ++ "\": \"" ++ kv.2 ++ "\"") ++
    "\x7d"

/-- The external environment of argument coercion in `safe_tool_node`:
`datetime.now().strftime('%Y-%m-%d')`, Python `float(...)` (`none` models a
raised `ValueError`), and `datetime.strptime(s, '%m/%d/%Y')` re-rendered with
`strftime('%Y-%m-%d')` (`none` models a raised parse error). -/
structure ToolEnv where
  today : String
  parseNum : String → Option Rat
  parseMDY : String → Option String

/-- `s.count('-')`. -/
def countDashes (s : String) : Nat := s.data.count '-'

/-- `s.lower()`. -/
def lowerStr (s : String) : String := String.mk (s.data.map Char.toLower)

/-- The parameter-fixing loop of `safe_tool_node`: only `add_expense` has a
string `amount` parsed to a number, and only `list_expenses` / `summarize` /
`net_cashflow` have their `start_date` / `end_date` / `date` string values
normalized (a value without exactly two dashes: the literal `today` becomes
the current date, a slashed date is re-parsed as `%m/%d/%Y`; failures leave
the argument unchanged). -/
def fixToolArgs (env : ToolEnv) (name : String) (args : List (String × JVal)) :
    List (String × JVal) :=
  if name = "add_expense" then
    args.map fun kv =>
      if kv.1 = "amount" then
        match kv.2 with
        | .str s =>
          match env.parseNum s with
          | some q => (kv.1, JVal.num q)
          | none => kv
        | _ => kv
      else kv
  else if name = "list_expenses" ∨ name = "summarize" ∨ name = "net_cashflow" then
    args.map fun kv =>
      if kv.1 = "start_date" ∨ kv.1 = "end_date" ∨ kv.1 = "date" then
        match kv.2 with
        | .str s =>
          if s ≠ "" ∧ countDashes s ≠ 2 then
            if lowerStr s = "today" then (kv.1, JVal.str env.today)
            else if s.data.contains '/' then
              match env.parseMDY s with
              | some iso => (kv.1, JVal.str iso)
              | none => kv
            else kv
          else kv
        | _ => kv
      else kv
  else args

/-- Argument fixing applied to a whole tool call (the call id is untouched). -/
def fixToolCall (env : ToolEnv) (c : ToolCall) : ToolCall :=
  { c with args := fixToolArgs env c.name c.args }

/-- Outcome of actually invoking one tool (the tools themselves are external:
web search, the RAG tool closure, MCP tools).  `raise` models a Python
exception escaping the tool body. -/
inductive ExecOutcome where
  | ok (content : MContent)
  | raise (err : String)

/-- langgraph's `ToolNode` (external collaborator) applied to the tool calls
of the last message: one tool message per call, in call order; an unknown
tool name or a raised exception is converted into an error-text tool message
carrying that call's id (`handle_tool_errors` defaults to on). -/
def toolNodeRun (tools : List String) (exec : ToolCall → ExecOutcome)
    (calls : List ToolCall) : List Msg :=
  calls.map fun c =>
    if tools.contains c.name then
      match exec c with
      | .ok content => Msg.tool content c.id
      | .raise e =>
        Msg.tool (.text ("Error: " ++ e ++ "\n Please fix your mistakes.")) c.id
    else
      Msg.tool
        (.text ("Error: " ++ c.name ++ " is not a valid tool, try one of [" ++
          String.intercalate ", " tools ++ "].")) c.id

/-- The message-validation loop after `tool_node.ainvoke` in
`safe_tool_node`: empty content becomes `Tool executed successfully`, list
and dict content are serialized to strings. -/
def fixToolMsgContent : Msg → Msg
  | .tool c id =>
    .tool
      (.text
        (if contentFalsy c then "Tool executed successfully"
         else
           match c with
           | .text s => s
           | .blocks l => pyStrOfBlocks l
           | .obj l => pyStrOfObj l)) id
  | m => m

/-- `safe_tool_node(state, config)` from `graph.py`: fix the argument types on
the last message's tool calls, run `ToolNode` over them, then normalize the
resulting tool-message contents.  When the last message carries no tool calls
`ToolNode` raises and the outer `except` returns a single failure tool message
(id `unknown` since there is no call to take an id from). -/
def safeToolNode (env : ToolEnv) (tools : List String)
    (exec : ToolCall → ExecOutcome) (msgs : List Msg) : List Msg :=
  match msgs.getLast? with
  | some (.ai _ calls) =>
    if calls.isEmpty then
      [Msg.tool (.text "Tool execution failed: no tool calls to execute") "unknown"]
    else
      (toolNodeRun tools exec (calls.map (fixToolCall env))).map fixToolMsgContent
  | _ => [Msg.tool (.text "Tool execution failed: no tool calls to execute") "unknown"]

/-- Whether a message is a tool message. -/
def Msg.isToolMsg : Msg → Bool
  | .tool _ _ => true
  | _ => false

/-- The `tool_call_id` of a tool message (empty for other roles). -/
def Msg.toolCallId : Msg → String
  | .tool _ id => id
  | _ => ""

/-! ### The Reasoning step's message preparation (`agent` in `graph.py`) -/

/-- The message validation loop of `agent`: tool messages with falsy content
are dropped (`continue`), tool messages with list content are flattened to
`str(...)`, everything else passes through. -/
def validateMessages : List Msg → List Msg
  | [] => []
  | .tool c id :: rest =>
    if contentFalsy c then validateMessages rest
    else
      (match c with
       | .blocks l => Msg.tool (.text (pyStrOfBlocks l)) id
       | _ => Msg.tool c id) :: validateMessages rest
  | m :: rest => m :: validateMessages rest

/-- `max_messages = 10` in `agent`. -/
def maxMessages : Nat := 10

/-- `SYSTEM_PROMPT_TEMPLATE` up to the `user_details_content` placeholder. -/
def promptHead : String :=
  "\nYou are Sentinel, a helpful AI assistant. Answer user questions clearly and concisely.\n\nIf user-specific memory is available, use it to personalize your responses.\nUser memory: "

/-- `SYSTEM_PROMPT_TEMPLATE` between the two placeholders. -/
def promptMid : String :=
  "\n\n## Available Tools\nYou have access to the following tools:\n\n1. **rag_tool**: Search uploaded PDF documents for information.\n   - Use when: User asks about document content or uploaded files\n\n2. **search_tool**: Search the internet for current information.\n   - Use when: User asks about dates, recent events, facts, or news\n   - IMPORTANT: Use this tool ONCE, then answer based on the results. Do NOT call it multiple times.\n\n3. **MCP Tools** (Finance & Expense Tracking):\n"

/-- `SYSTEM_PROMPT_TEMPLATE` after the `available_tools` placeholder. -/
def promptTail : String :=
  "\n\n**CRITICAL RULES:**\n1. When you call a tool, WAIT for the result and USE IT in your answer\n2. DO NOT call the same tool multiple times for the same question\n3. DO NOT make up data - if you used a tool and got results, use those results\n4. If a tool returns \"no data\" or empty results, say so clearly - don\x27t hallucinate\n5. After using a tool, provide a direct answer based on the tool\x27s output\n6. **IMPORTANT**: For expense tools, always use NUMBERS for amounts (e.g., 50, not \"50\")\n7. **IMPORTANT**: For date parameters, use YYYY-MM-DD format (e.g., \"2024-01-15\") or \"today\"\n\nAlways provide helpful, accurate, factual responses based on tool results.\n"

/-- `SYSTEM_PROMPT_TEMPLATE.format(...)`: the whole template with the
resolved long-term memory and the tool catalog description substituted in. -/
def buildSystemPrompt (userDetails availableTools : String) : String :=
  promptHead ++ userDetails ++ promptMid ++ availableTools ++ promptTail

/-- The long-term memory resolution in `agent`: the stored `data` values are
rendered as `- ` lines, and an empty (or failed) store search yields the
default text. -/
def resolveUserDetails (items : List String) : String :=
  if items.isEmpty then "No previous memories found."
  else String.intercalate "\n" (items.map fun d => "- " ++ d)

/-- A dynamically discovered MCP tool (name and description). -/
structure MCPTool where
  name : String
  description : String
deriving DecidableEq

/-- One catalog line for an MCP tool, with the description capped at 100
characters. -/
def toolCatalogLine (t : MCPTool) : String :=
  "   - **" ++ t.name ++ "**: " ++
    (if t.description.length ≤ 100 then t.description
     else t.description.take 100 ++ "...")

/-- The `available_tools` text built by `agent` from the loaded MCP tools. -/
def availableToolsText (mcpTools : List MCPTool) : String :=
  if mcpTools.isEmpty then "   (No MCP tools loaded for this query)"
  else
    String.intercalate "\n"
      (["\n**Available MCP Tools:**"] ++ mcpTools.map toolCatalogLine ++
        ["\n**YOU MUST use these tools when user asks about expenses or finances. DO NOT make up data.**"])

/-- The message list `agent` sends to the model: validate, truncate to the
`max_messages` most recent entries (`validated_messages[-max_messages:]`),
and prepend one freshly built system prompt. -/
def prepareMessages (systemPrompt : String) (msgs : List Msg) : List Msg :=
  let validated := validateMessages msgs
  let truncated :=
    if validated.length > maxMessages then
      validated.drop (validated.length - maxMessages)
    else validated
  Msg.system systemPrompt :: truncated

/-! ### The compiled graph loop and its recursion limit -/

/-- The two graph nodes of `build_graph`. -/
inductive GNode where
  | agent
  | tools

/-- `recursion_limit` set in the `chat` endpoint's config (`main.py`). -/
def recursionLimit : Nat := 15

/-- The message of langgraph's `GraphRecursionError`. -/
def recursionErrorMsg : String :=
  "Recursion limit of 15 reached without hitting a stop condition."

/-- The compiled graph of `build_graph` run under langgraph's recursion
limit: `START -> agent`, `tools_condition` routes to `tools` exactly when the
model response carries tool calls, `tools -> agent`, and each executed node
consumes one unit of the step budget — exhausting it raises
`GraphRecursionError`.  The model invocation inside `agent` (including its
internal retry fallbacks) is the external function `llm`. -/
def runGraph (env : ToolEnv) (tools : List String) (exec : ToolCall → ExecOutcome)
    (llm : List Msg → String × List ToolCall) (sp : String) :
    Nat → GNode → List Msg → Except String (List Msg)
  | 0, _, _ => .error recursionErrorMsg
  | fuel + 1, .agent, msgs =>
    let r := llm (prepareMessages sp msgs)
    let msgs2 := msgs ++ [Msg.ai r.1 r.2]
    if r.2.isEmpty then .ok msgs2
    else runGraph env tools exec llm sp fuel .tools msgs2
  | fuel + 1, .tools, msgs =>
    runGraph env tools exec llm sp fuel .agent (msgs ++ safeToolNode env tools exec msgs)

/-- One chat turn: the graph started at `agent` with the configured
`recursion_limit` of 15. -/
def runTurn (env : ToolEnv) (tools : List String) (exec : ToolCall → ExecOutcome)
    (llm : List Msg → String × List ToolCall) (sp : String) (msgs : List Msg) :
    Except String (List Msg) :=
  runGraph env tools exec llm sp recursionLimit .agent msgs

/-! ### The Event Stream Bridge (`stream_generator` in `main.py`) -/

/-- The `astream_events` events `stream_generator` reacts to, with content
already passed through `_normalize_content`. -/
inductive StreamEvent where
  | chatModelStream (content : String)
  | toolStart (runId name input : String)
  | toolEnd (runId output : String)
  | chainEnd (finalMessages : List Msg)

/-- The newline-delimited frames of the output protocol: `0:` text deltas,
`9:` tool-call starts, `a:` tool results, and the protocol's terminal finish
frame (which the claims discuss). -/
inductive Frame where
  | textDelta (s : String)
  | toolStart (id name args : String)
  | toolResult (id result : String)
  | finish (reason : String)
deriving DecidableEq

/-- Whether a frame is the terminal finish frame. -/
def Frame.isFinish : Frame → Bool
  | .finish _ => true
  | _ => false

/-- Python slicing `s[:n]` on the character level. -/
def takeChars (n : Nat) (s : String) : String := String.mk (s.data.take n)

/-- The frames yielded for one event inside the stream loop: nonempty model
chunks become `0:` frames, tool starts become `9:` frames, tool ends become
`a:` frames with the result capped at 500 characters (`result[:500]`),
`on_chain_end` only records the final messages. -/
def frameOfEvent : StreamEvent → List Frame
  | .chatModelStream c => if c = "" then [] else [.textDelta c]
  | .toolStart id name input => [.toolStart id name input]
  | .toolEnd id output => [.toolResult id (takeChars 500 output)]
  | .chainEnd _ => []

/-- All frames yielded by the event loop. -/
def eventFrames (events : List StreamEvent) : List Frame :=
  events.flatMap frameOfEvent

/-- The `has_content` flag after the loop: some model chunk was nonempty. -/
def hasContent (events : List StreamEvent) : Bool :=
  events.any fun e =>
    match e with
    | .chatModelStream c => c ≠ ""
    | _ => false

/-- The `final_messages` variable after the loop: the payload of the last
`on_chain_end` event of the LangGraph run (initially `[]`). -/
def finalMessagesOf (events : List StreamEvent) : List Msg :=
  events.foldl
    (fun acc e =>
      match e with
      | .chainEnd ms => ms
      | _ => acc) []

/-- The `for msg in reversed(final_messages)` scan: the content of the most
recent assistant message whose (normalized) content is nonempty. -/
def lastNonemptyAi (ms : List Msg) : Option String :=
  ms.reverse.findSome? fun m =>
    match m with
    | .ai c _ => if c = "" then none else some c
    | _ => none

/-- `chunk_size = 50` in the no-streaming fallback. -/
def chunkSize : Nat := 50

/-- `content[i:i+chunk_size] for i in range(0, len(content), chunk_size)`,
written with a fuel argument that the wrapper instantiates with the content
length so that the recursion is structural. -/
def chunkListAux : Nat → List Char → List (List Char)
  | _, [] => []
  | 0, l => [l]
  | fuel + 1, l => l.take chunkSize :: chunkListAux fuel (l.drop chunkSize)

/-- The chunk pieces of the full-text fallback. -/
def chunkList (l : List Char) : List (List Char) := chunkListAux l.length l

/-- The `0:` frames of the full-text fallback. -/
def chunkFrames (c : String) : List Frame :=
  (chunkList c.data).map fun l => Frame.textDelta (String.mk l)

/-- The error text yielded by the `except` clause of `stream_generator`. -/
def errorFrameText (e : String) : String :=
  "I encountered an error: " ++ e ++ ". Please try again."

/-- `stream_generator` from `main.py` as the finite frame list it yields.
`events` are the events produced before the source either finishes
(`error = none`) or raises (`error = some e`, covering the whole `try`
body, after which the single error frame is yielded).  `emergency` is the
result of the last-resort `chatbot.ainvoke` call, consulted only when
nothing was streamed and the final messages produced no text. -/
def streamGenerator (events : List StreamEvent) (error : Option String)
    (emergency : Except String (List Msg)) : List Frame :=
  match error with
  | some e => eventFrames events ++ [.textDelta (errorFrameText e)]
  | none =>
    let base := eventFrames events
    if hasContent events then base
    else
      match lastNonemptyAi (finalMessagesOf events) with
      | some c => base ++ chunkFrames c
      | none =>
        match emergency with
        | .ok ms =>
          match lastNonemptyAi ms with
          | some c => base ++ [.textDelta c]
          | none => base
        | .error _ => base

/-! ### Declared tool schemas of the local MCP maths server -/

/-- One declared tool parameter (name and JSON schema type). -/
structure ToolParam where
  pname : String
  ptype : String
deriving DecidableEq

/-- One tool declaration of the active tool set. -/
structure ToolSchema where
  tname : String
  params : List ToolParam
deriving DecidableEq

/-- The tools declared by `backend/local_mcp/test_server.py`: every tool
takes two `float` (JSON `number`) parameters `a` and `b`. -/
def mathServerTools : List ToolSchema :=
  [⟨"add", [⟨"a", "number"⟩, ⟨"b", "number"⟩]⟩,
   ⟨"subtract", [⟨"a", "number"⟩, ⟨"b", "number"⟩]⟩,
   ⟨"multiply", [⟨"a", "number"⟩, ⟨"b", "number"⟩]⟩,
   ⟨"divide", [⟨"a", "number"⟩, ⟨"b", "number"⟩]⟩,
   ⟨"modulus", [⟨"a", "number"⟩, ⟨"b", "number"⟩]⟩,
   ⟨"power", [⟨"a", "number"⟩, ⟨"b", "number"⟩]⟩]

/-- The tool names `safe_tool_node`'s coercion loop inspects at all. -/
def coercionTools : List String :=
  ["add_expense", "list_expenses", "summarize", "net_cashflow"]

/-! ### The cross-thread isolation invariant -/

/-- Everything thread `A` can reach in the registry state avoids the chunk
`c`: the persistent collection named after `A` does not hold `c`, a FAISS
retriever registered for `A` does not hold `c`, and a PGVector retriever
registered for `A` points at `A`'s own collection. -/
def cleanFor (A : String) (c : Chunk) (st : RagState) : Prop :=
  (∀ l, mapFind st.collections (collName A) = some l → c ∉ l) ∧
  (∀ l k, mapFind st.retrievers A = some (.faiss l k) → c ∉ l) ∧
  (∀ n k, mapFind st.retrievers A = some (.pg n k) → n = collName A)

/-! ### Concrete fixtures used by the witness theorems -/

/-- A chunk that is only ever ingested under thread `B`. -/
def secretChunk : Chunk := ⟨"the launch code is 4711", 2⟩

/-- The chunk of thread `A`'s own document. -/
def alphaChunk : Chunk := ⟨"alpha facts", 1⟩

/-- A concrete loader: `a.pdf` holds `alphaChunk`, `b.pdf` holds
`secretChunk`, everything else raises. -/
def loadFx : String → Loaded := fun p =>
  if p = "a.pdf" then .ok 1 [alphaChunk]
  else if p = "b.pdf" then .ok 1 [secretChunk]
  else .err "file not found"

/-- A concrete ingest history: thread `A` ingests `a.pdf`, thread `B`
ingests `b.pdf`, both through PGVector. -/
def eventsFx : List IngestEvent :=
  [⟨"a.pdf", "A", .pg⟩, ⟨"b.pdf", "B", .pg⟩]

/-- A concrete (constant) similarity ranking. -/
def rankFx : String → Chunk → Nat := fun _ _ => 0

/-- A concrete coercion environment: a fixed current date, a number parser
defined on the one numeral the witnesses use, and a date parser that always
fails. -/
def envFx : ToolEnv :=
  { today := "2026-10-12",
    parseNum := fun s => if s = "50" then some 50 else none,
    parseMDY := fun _ => none }

/-- A concrete tool executor for the witnesses: `add` raises, everything
else succeeds with a text result. -/
def execFx : ToolCall → ExecOutcome := fun c =>
  if c.name = "add" then .raise "division backend down"
  else .ok (.text "ok")

/-- A model that re-requests the same tool on every reasoning step. -/
def loopingLlm : List Msg → String × List ToolCall :=
  fun _ => ("", [⟨"search_tool", [], "call_1"⟩])

/-- The tool calls of the witness assistant message: the first one will raise
during execution. -/
def callsFx : List ToolCall :=
  [⟨"add", [("a", JVal.str "1")], "id1"⟩, ⟨"rag_tool", [], "id2"⟩]

/-- The active tool names used by the witnesses. -/
def toolsFx : List String := ["rag_tool", "search_tool", "add"]

/-- A concrete history ending in an assistant message with two tool calls. -/
def msgsFx : List Msg := [.human "hi", .ai "x" callsFx]

/-- A concrete history of twelve user messages (longer than `max_messages`). -/
def msgsLong : List Msg := List.replicate 12 (Msg.human "m")

/-! ### Helper lemmas about the map model -/

theorem mapFind_insert_self {α : Type} (m : List (String × α)) (k : String) (v : α) :
    mapFind (mapInsert m k v) k = some v := by
  induction m with
  | nil => simp [mapInsert, mapFind]
  | cons p rest ih =>
    obtain ⟨pk, pv⟩ := p
    by_cases h : pk = k
    · simp [mapInsert, mapFind, h]
    · simp [mapInsert, mapFind, h, ih]

theorem mapFind_insert_ne {α : Type} (m : List (String × α)) (k k2 : String) (v : α)
    (h : k2 ≠ k) : mapFind (mapInsert m k v) k2 = mapFind m k2 := by
  induction m with
  | nil => simp [mapInsert, mapFind, Ne.symm h]
  | cons p rest ih =>
    obtain ⟨pk, pv⟩ := p
    by_cases hk : pk = k
    · subst hk
      simp [mapInsert, mapFind, Ne.symm h]
    · simp [mapInsert, mapFind, hk, ih]

theorem mapFind_erase_self {α : Type} (m : List (String × α)) (k : String) :
    mapFind (mapErase m k) k = none := by
  induction m with
  | nil => simp [mapErase, mapFind]
  | cons p rest ih =>
    obtain ⟨pk, pv⟩ := p
    by_cases h : pk = k
    · simpa [mapErase, List.filter_cons, h] using ih
    · simpa [mapErase, List.filter_cons, h, mapFind] using ih

theorem mapFind_appendAt_self (m : List (String × List Chunk)) (k : String)
    (l : List Chunk) :
    mapFind (mapAppendAt m k l) k = some (mapFindD m k [] ++ l) := by
  unfold mapAppendAt mapFindD
  cases h : mapFind m k with
  | none => simp [mapFind_insert_self]
  | some old => simp [mapFind_insert_self]

theorem mapFind_appendAt_ne (m : List (String × List Chunk)) (k k2 : String)
    (l : List Chunk) (h : k2 ≠ k) :
    mapFind (mapAppendAt m k l) k2 = mapFind m k2 := by
  unfold mapAppendAt
  cases hm : mapFind m k with
  | none => simp [mapFind_insert_ne _ _ _ _ h]
  | some old => simp [mapFind_insert_ne _ _ _ _ h]

/-- `collection_name = "sentinel_thread_" ++ thread_id` is injective in the
thread id, so distinct threads always use distinct PGVector collections. -/
theorem collName_inj {s t : String} (h : collName s = collName t) : s = t := by
  have h2 : "sentinel_thread_".data ++ s.data = "sentinel_thread_".data ++ t.data := by
    simpa [collName, String.data_append] using congrArg String.data h
  exact String.ext (List.append_cancel_left h2)

/-- Similarity search only ever returns stored chunks. -/
theorem retrieveChunks_subset (score : Chunk → Nat) (coll : List Chunk) (k : Nat) :
    ∀ c ∈ retrieveChunks score coll k, c ∈ coll := by
  intro c hc
  have h1 : c ∈ coll.insertionSort (fun a b => score b ≤ score a) :=
    List.take_subset _ _ hc
  exact (List.perm_insertionSort _ coll).subset h1

/-- Chunks of any retriever invocation come from the collection it reads. -/
theorem retriever_invoke_subset (r : Retriever) (collections : List (String × List Chunk))
    (score : Chunk → Nat) :
    ∀ c ∈ r.invoke collections score,
      match r with
      | .pg name _ => c ∈ mapFindD collections name []
      | .faiss chunks _ => c ∈ chunks := by
  intro c hc
  cases r with
  | pg name k => exact retrieveChunks_subset score _ k c hc
  | faiss chunks k => exact retrieveChunks_subset score _ k c hc

/-! ### Helper lemmas about chunking and frames -/

theorem chunkListAux_flatten : ∀ (fuel : Nat) (l : List Char),
    l.length ≤ fuel → (chunkListAux fuel l).flatten = l := by
  intro fuel
  induction fuel with
  | zero =>
    intro l hl
    have : l = [] := List.eq_nil_of_length_eq_zero (Nat.le_zero.mp hl)
    subst this
    simp [chunkListAux]
  | succ n ih =>
    intro l hl
    cases l with
    | nil => simp [chunkListAux]
    | cons a rest =>
      have hcs : chunkSize = 50 := rfl
      have hdrop : ((a :: rest).drop chunkSize).length ≤ n := by
        have : ((a :: rest).drop chunkSize).length = (a :: rest).length - chunkSize := by
          simp
        simp only [List.length_cons] at hl this
        omega
      simp only [chunkListAux, List.flatten_cons, ih _ hdrop]
      exact List.take_append_drop _ _

/-- Concatenating the fallback chunks reproduces the full text. -/
theorem chunkList_flatten (l : List Char) : (chunkList l).flatten = l :=
  chunkListAux_flatten l.length l (Nat.le_refl _)

theorem chunkListAux_piece_le : ∀ (fuel : Nat) (l p : List Char),
    l.length ≤ fuel → p ∈ chunkListAux fuel l → p.length ≤ chunkSize := by
  intro fuel
  induction fuel with
  | zero =>
    intro l p hl hp
    have : l = [] := List.eq_nil_of_length_eq_zero (Nat.le_zero.mp hl)
    subst this
    simp [chunkListAux] at hp
  | succ n ih =>
    intro l p hl hp
    cases l with
    | nil => simp [chunkListAux] at hp
    | cons a rest =>
      simp only [chunkListAux, List.mem_cons] at hp
      rcases hp with h | h
      · subst h
        exact List.length_take_le chunkSize (a :: rest)
      · have hcs : chunkSize = 50 := rfl
        have hdrop : ((a :: rest).drop chunkSize).length ≤ n := by
          have : ((a :: rest).drop chunkSize).length = (a :: rest).length - chunkSize := by
            simp
          simp only [List.length_cons] at hl this
          omega
        exact ih _ _ hdrop h

/-- Every fallback chunk respects the fixed chunk size. -/
theorem chunkList_piece_le (l p : List Char) (hp : p ∈ chunkList l) :
    p.length ≤ chunkSize :=
  chunkListAux_piece_le l.length l p (Nat.le_refl _) hp

/-- The event loop of `stream_generator` never yields a finish frame. -/
theorem eventFrames_no_finish (events : List StreamEvent) :
    ∀ f ∈ eventFrames events, f.isFinish = false := by
  intro f hf
  simp only [eventFrames, List.mem_flatMap] at hf
  obtain ⟨e, _, hfe⟩ := hf
  cases e with
  | chatModelStream c =>
    by_cases h : c = ""
    · simp [frameOfEvent, h] at hfe
    · simp [frameOfEvent, h] at hfe
      simp [hfe, Frame.isFinish]
  | toolStart id name input =>
    simp [frameOfEvent] at hfe
    simp [hfe, Frame.isFinish]
  | toolEnd id output =>
    simp [frameOfEvent] at hfe
    simp [hfe, Frame.isFinish]
  | chainEnd ms => simp [frameOfEvent] at hfe

/-- The full-text fallback never yields a finish frame either. -/
theorem chunkFrames_no_finish (c : String) :
    ∀ f ∈ chunkFrames c, f.isFinish = false := by
  intro f hf
  simp only [chunkFrames, List.mem_map] at hf
  obtain ⟨l, _, hfl⟩ := hf
  simp [← hfl, Frame.isFinish]

/-! ### Claim C1: cross-thread retrieval isolation -/

/-- One `process_document` call preserves the isolation invariant for thread
`A` and chunk `c`, provided the call only touches `A`'s registry entries when
its own document avoids `c`. -/
theorem cleanFor_step (load : String → Loaded) (A : String) (c : Chunk)
    (st : RagState) (e : IngestEvent)
    (hclean : cleanFor A c st)
    (hA : e.thread_id = A → c ∉ chunksOf load e.path) :
    cleanFor A c (processDocument load e.venv st e.path e.thread_id).2 := by
  obtain ⟨h1, h2, h3⟩ := hclean
  cases hl : load e.path with
  | err m =>
    simp only [processDocument, hl]
    exact ⟨h1, h2, h3⟩
  | ok pages chunks =>
    have hC : e.thread_id = A → c ∉ chunks := by
      intro hT
      have h := hA hT
      simpa [chunksOf, hl] using h
    cases hv : e.venv with
    | bothFail =>
      simp only [processDocument, hl]
      exact ⟨h1, h2, h3⟩
    | pg =>
      simp only [processDocument, hl]
      by_cases hT : e.thread_id = A
      · subst hT
        refine ⟨?_, ?_, ?_⟩
        · intro l hfind
          rw [mapFind_appendAt_self] at hfind
          have hl2 : l = mapFindD st.collections (collName e.thread_id) [] ++ chunks :=
            (Option.some.inj hfind).symm
          subst hl2
          intro hmem
          rcases List.mem_append.mp hmem with hold | hnew
          · unfold mapFindD at hold
            cases hf : mapFind st.collections (collName e.thread_id) with
            | none => rw [hf] at hold; simp at hold
            | some old =>
              rw [hf] at hold
              exact h1 old hf hold
          · exact hC rfl hnew
        · intro l k hfind
          rw [mapFind_insert_self] at hfind
          cases hfind
        · intro n k hfind
          rw [mapFind_insert_self] at hfind
          cases hfind
          rfl
      · refine ⟨?_, ?_, ?_⟩
        · intro l hfind
          rw [mapFind_appendAt_ne _ _ _ _ (fun h => hT (collName_inj h).symm)] at hfind
          exact h1 l hfind
        · intro l k hfind
          rw [mapFind_insert_ne _ _ _ _ (fun h => hT h.symm)] at hfind
          exact h2 l k hfind
        · intro n k hfind
          rw [mapFind_insert_ne _ _ _ _ (fun h => hT h.symm)] at hfind
          exact h3 n k hfind
    | faissFallback =>
      simp only [processDocument, hl]
      by_cases hT : e.thread_id = A
      · subst hT
        refine ⟨h1, ?_, ?_⟩
        · intro l k hfind
          rw [mapFind_insert_self] at hfind
          cases hfind
          exact hC rfl
        · intro n k hfind
          rw [mapFind_insert_self] at hfind
          cases hfind
      · refine ⟨h1, ?_, ?_⟩
        · intro l k hfind
          rw [mapFind_insert_ne _ _ _ _ (fun h => hT h.symm)] at hfind
          exact h2 l k hfind
        · intro n k hfind
          rw [mapFind_insert_ne _ _ _ _ (fun h => hT h.symm)] at hfind
          exact h3 n k hfind

/-- The isolation invariant survives any sequence of ingests whose documents
under thread `A` avoid `c`. -/
theorem cleanFor_runIngests (load : String → Loaded) (A : String) (c : Chunk) :
    ∀ (events : List IngestEvent) (st : RagState), cleanFor A c st →
      (∀ e ∈ events, e.thread_id = A → c ∉ chunksOf load e.path) →
      cleanFor A c (runIngests load events st)
  | [], _, hclean, _ => hclean
  | e :: es, st, hclean, hev =>
    cleanFor_runIngests load A c es _
      (cleanFor_step load A c st e hclean (hev e (List.mem_cons_self e es)))
      (fun x hx => hev x (List.mem_cons_of_mem e hx))

/-- Under the isolation invariant, a retrieval for thread `A` cannot return
the chunk `c`. -/
theorem ragRetrieve_avoids (rank : String → Chunk → Nat) (st : RagState)
    (A q : String) (c : Chunk) (docs : List Chunk)
    (hclean : cleanFor A c st)
    (hq : ragRetrieveDocs rank st A q = some docs) : c ∉ docs := by
  obtain ⟨h1, h2, h3⟩ := hclean
  unfold ragRetrieveDocs at hq
  cases hr : mapFind st.retrievers A with
  | none => rw [hr] at hq; cases hq
  | some r =>
    cases hi : mapFind st.docInfo A with
    | none => rw [hr, hi] at hq; cases hq
    | some info =>
      rw [hr, hi] at hq
      have hdocs : docs = r.invoke st.collections (rank q) := (Option.some.inj hq).symm
      subst hdocs
      intro hmem
      cases r with
      | pg name k =>
        have hn := h3 name k hr
        subst hn
        have hsub := retrieveChunks_subset (rank q)
          (mapFindD st.collections (collName A) []) k c hmem
        unfold mapFindD at hsub
        cases hf : mapFind st.collections (collName A) with
        | none => rw [hf] at hsub; simp at hsub
        | some l =>
          rw [hf] at hsub
          exact h1 l hf hsub
      | faiss chunks k =>
        exact h2 chunks k hr (retrieveChunks_subset (rank q) chunks k c hmem)

/-- C1: for all distinct thread ids `A ≠ B` and every query, a retrieval
resolved for thread `A` (`rag_tool`) never returns a chunk that was only ever
ingested — in any run of `process_document` calls from a fresh state — under
thread `B`. -/
theorem rag_thread_isolation (load : String → Loaded) (events : List IngestEvent)
    (rank : String → Chunk → Nat) (A B query : String) (c : Chunk) (docs : List Chunk)
    (hAB : A ≠ B)
    (honly : ∀ e ∈ events, c ∈ chunksOf load e.path → e.thread_id = B)
    (hq : ragRetrieveDocs rank (runIngests load events emptyRagState) A query = some docs) :
    c ∉ docs := by
  have hempty : cleanFor A c emptyRagState := by
    refine ⟨?_, ?_, ?_⟩
    · intro l hfind
      simp [emptyRagState, mapFind] at hfind
    · intro l k hfind
      simp [emptyRagState, mapFind] at hfind
    · intro n k hfind
      simp [emptyRagState, mapFind] at hfind
  have hev : ∀ e ∈ events, e.thread_id = A → c ∉ chunksOf load e.path := by
    intro e he hT hc
    exact hAB (hT ▸ honly e he hc)
  exact ragRetrieve_avoids rank _ A query c docs
    (cleanFor_runIngests load A c events emptyRagState hempty hev) hq

/-- Witness for C1: thread `A` ingests `a.pdf`, thread `B` ingests `b.pdf`
whose secret chunk therefore never shows up in `A`'s retrieval. -/
theorem rag_thread_isolation_witness : secretChunk ∉ [alphaChunk] :=
  rag_thread_isolation loadFx eventsFx rankFx "A" "B" "q" secretChunk [alphaChunk]
    (by decide)
    (by
      intro e he
      fin_cases he
      · intro hc
        exact absurd hc (by decide)
      · intro _
        rfl)
    (by decide)

/-! ### Claim C2: one tool message per call id, in call order -/

theorem append_ne_empty_left (s t : String) (h : s.data ≠ []) : s ++ t ≠ "" := by
  intro he
  apply h
  have h2 : (s ++ t).data = [] := congrArg String.data he
  rw [String.data_append] at h2
  exact (List.append_eq_nil.mp h2).1

/-- `safe_tool_node` on a last message with tool calls is exactly the
per-call map: fix the arguments, run the call through `ToolNode`, normalize
the resulting content. -/
theorem safeToolNode_eq_map (env : ToolEnv) (tools : List String)
    (exec : ToolCall → ExecOutcome) (msgs : List Msg) (content : String)
    (calls : List ToolCall)
    (hlast : msgs.getLast? = some (.ai content calls)) (hne : calls ≠ []) :
    safeToolNode env tools exec msgs =
      calls.map fun c =>
        fixToolMsgContent
          (if tools.contains (fixToolCall env c).name then
            match exec (fixToolCall env c) with
            | .ok content2 => Msg.tool content2 (fixToolCall env c).id
            | .raise e =>
              Msg.tool (.text ("Error: " ++ e ++ "\n Please fix your mistakes."))
                (fixToolCall env c).id
          else
            Msg.tool
              (.text ("Error: " ++ (fixToolCall env c).name ++
                " is not a valid tool, try one of [" ++
                String.intercalate ", " tools ++ "]."))
              (fixToolCall env c).id) := by
  have h0 : calls.isEmpty = false := by
    cases calls with
    | nil => exact absurd rfl hne
    | cons a l => rfl
  unfold safeToolNode
  rw [hlast]
  simp only [h0, Bool.false_eq_true, if_false]
  unfold toolNodeRun
  rw [List.map_map, List.map_map]
  rfl

/-- C2: for every assistant message with `n ≥ 1` tool calls, the Safe Tool
Executor appends exactly `n` tool messages — one per call id, in the original
call order — and a call whose execution raises is converted into a tool
message tagged with that call's id (the executor is a total function, so
nothing propagates to crash the turn). -/
theorem safe_executor_messages (env : ToolEnv) (tools : List String)
    (exec : ToolCall → ExecOutcome) (msgs : List Msg) (content : String)
    (calls : List ToolCall)
    (hlast : msgs.getLast? = some (.ai content calls)) (hne : calls ≠ []) :
    (safeToolNode env tools exec msgs).length = calls.length ∧
    (safeToolNode env tools exec msgs).map Msg.toolCallId = calls.map ToolCall.id ∧
    (∀ m ∈ safeToolNode env tools exec msgs, m.isToolMsg = true) ∧
    (∀ (i : Nat) (c : ToolCall) (e : String), calls[i]? = some c →
      exec (fixToolCall env c) = .raise e →
      tools.contains c.name = true →
      (safeToolNode env tools exec msgs)[i]? =
        some (Msg.tool (.text ("Error: " ++ e ++ "\n Please fix your mistakes.")) c.id)) := by
  have hS := safeToolNode_eq_map env tools exec msgs content calls hlast hne
  refine ⟨?_, ?_, ?_, ?_⟩
  · rw [hS, List.length_map]
  · rw [hS, List.map_map]
    apply List.map_congr_left
    intro c _
    simp only [Function.comp_apply]
    by_cases h : tools.contains (fixToolCall env c).name = true
    · rw [if_pos h]
      cases exec (fixToolCall env c) <;> rfl
    · rw [if_neg h]
      rfl
  · intro m hm
    rw [hS] at hm
    obtain ⟨c, _, hc⟩ := List.mem_map.mp hm
    subst hc
    by_cases h : tools.contains (fixToolCall env c).name = true
    · rw [if_pos h]
      cases exec (fixToolCall env c) <;> rfl
    · rw [if_neg h]
      rfl
  · intro i c e hi hraise hcontains
    rw [hS, List.getElem?_map, hi]
    have h : tools.contains (fixToolCall env c).name = true := hcontains
    have hok : ("Error: " ++ e) ++ "\n Please fix your mistakes." ≠ "" :=
      append_ne_empty_left _ _ (by
        intro hd
        rw [String.data_append] at hd
        exact absurd ((List.append_eq_nil.mp hd).1) (by decide))
    simp only [Option.map_some']
    rw [if_pos h, hraise]
    have hfalsy :
        contentFalsy (.text (("Error: " ++ e) ++ "\n Please fix your mistakes.")) = false := by
      simp [contentFalsy, hok]
    simp only [fixToolMsgContent, hfalsy, Bool.false_eq_true, if_false]
    rfl

/-- Witness for C2: two calls, the first of which raises, still yield the two
call ids in order. -/
theorem safe_executor_messages_witness :
    (safeToolNode envFx toolsFx execFx msgsFx).map Msg.toolCallId = ["id1", "id2"] :=
  ((safe_executor_messages envFx toolsFx execFx msgsFx "x" callsFx rfl
      (by decide)).2.1).trans (by decide)

/-! ### Claim C3: re-ingest under the same thread id -/

/-- C3 (code bug evaluation): `process_document` called twice for the same
one-chunk document and thread id.  The second call replaces the entry of
`_retrievers_by_thread`, but `PGVector.from_documents` is invoked on the same
persistent `sentinel_thread_t` collection without deleting it first, so the
chunk is stored twice and the retrieval after the double ingest returns the
chunk twice — not the single-ingest result the claim requires. -/
theorem reingest_appends_not_replaces :
    ragRetrieveDocs rankFx
        (processDocument loadFx .pg emptyRagState "a.pdf" "t").2 "t" "q" =
      some [alphaChunk] ∧
    ragRetrieveDocs rankFx
        (processDocument loadFx .pg
          (processDocument loadFx .pg emptyRagState "a.pdf" "t").2 "a.pdf" "t").2 "t" "q" =
      some [alphaChunk, alphaChunk] ∧
    ragRetrieveDocs rankFx
        (processDocument loadFx .pg
          (processDocument loadFx .pg emptyRagState "a.pdf" "t").2 "a.pdf" "t").2 "t" "q" ≠
      ragRetrieveDocs rankFx
        (processDocument loadFx .pg emptyRagState "a.pdf" "t").2 "t" "q" := by
  refine ⟨by decide, by decide, by decide⟩

/-! ### Claim C4: history truncation before the Reasoning step -/

/-- C4: when the validated history is longer than `max_messages = 10`, the
Reasoning step forwards exactly the 10 most recent validated messages,
preceded by exactly one freshly built system prompt that embeds the resolved
long-term memory and the active tool catalog description (the prompt itself
is never truncated: the whole of `buildSystemPrompt` is prepended). -/
theorem agent_truncation (items : List String) (mcpTools : List MCPTool)
    (msgs : List Msg)
    (h : (validateMessages msgs).length > maxMessages) :
    prepareMessages
        (buildSystemPrompt (resolveUserDetails items) (availableToolsText mcpTools)) msgs =
      Msg.system
          (buildSystemPrompt (resolveUserDetails items) (availableToolsText mcpTools)) ::
        (validateMessages msgs).drop ((validateMessages msgs).length - maxMessages) ∧
    ((validateMessages msgs).drop
        ((validateMessages msgs).length - maxMessages)).length = maxMessages := by
  constructor
  · simp only [prepareMessages]
    rw [if_pos h]
  · rw [List.length_drop]
    have hm : maxMessages = 10 := rfl
    omega

/-- Witness for C4: twelve user messages are truncated to the ten most
recent. -/
theorem agent_truncation_witness :
    ((validateMessages msgsLong).drop
        ((validateMessages msgsLong).length - maxMessages)).length = maxMessages :=
  (agent_truncation ["likes tea"] [] msgsLong (by decide)).2

/-! ### Claim C5: the iteration limit halts a re-requesting loop -/

/-- With a model that requests a tool on every step, the graph exhausts any
step budget and surfaces `GraphRecursionError`. -/
theorem runGraph_loops (env : ToolEnv) (tools : List String)
    (exec : ToolCall → ExecOutcome) (llm : List Msg → String × List ToolCall)
    (sp : String) (hloop : ∀ ms, (llm ms).2 ≠ []) :
    ∀ (fuel : Nat) (node : GNode) (msgs : List Msg),
      runGraph env tools exec llm sp fuel node msgs = .error recursionErrorMsg := by
  intro fuel
  induction fuel with
  | zero =>
    intro node msgs
    cases node <;> rfl
  | succ n ih =>
    intro node msgs
    cases node with
    | agent =>
      have hne : ((llm (prepareMessages sp msgs)).2).isEmpty = false := by
        cases hll : (llm (prepareMessages sp msgs)).2 with
        | nil => exact absurd hll (hloop _)
        | cons a l => rfl
      simp only [runGraph, hne, Bool.false_eq_true, if_false]
      exact ih _ _
    | tools =>
      simp only [runGraph]
      exact ih _ _

/-- C5: a turn in which the model re-requests a tool on every reasoning step
is stopped by the configured `recursion_limit` of 15 node executions: the run
ends in the failed state (`GraphRecursionError`) instead of looping, and the
stream layer then yields exactly one explanatory assistant text frame and
closes (the input history passed to the turn is left untouched). -/
theorem iteration_limit_halts (env : ToolEnv) (tools : List String)
    (exec : ToolCall → ExecOutcome) (llm : List Msg → String × List ToolCall)
    (sp : String) (msgs : List Msg) (events : List StreamEvent)
    (emergency : Except String (List Msg))
    (hloop : ∀ ms, (llm ms).2 ≠ []) :
    runTurn env tools exec llm sp msgs = .error recursionErrorMsg ∧
    streamGenerator events (some recursionErrorMsg) emergency =
      eventFrames events ++ [Frame.textDelta (errorFrameText recursionErrorMsg)] :=
  ⟨runGraph_loops env tools exec llm sp hloop recursionLimit .agent msgs, rfl⟩

/-- Witness for C5: the looping model is halted and a single error frame is
emitted on an empty event prefix. -/
theorem iteration_limit_halts_witness :
    runTurn envFx toolsFx execFx loopingLlm "sp" [] = .error recursionErrorMsg ∧
    streamGenerator [] (some recursionErrorMsg) (.error "boom") =
      [Frame.textDelta (errorFrameText recursionErrorMsg)] :=
  ⟨(iteration_limit_halts envFx toolsFx execFx loopingLlm "sp" [] [] (.error "boom")
      (fun ms => by simp [loopingLlm])).1,
   ((iteration_limit_halts envFx toolsFx execFx loopingLlm "sp" [] [] (.error "boom")
      (fun ms => by simp [loopingLlm])).2).trans rfl⟩

/-! ### Claim C6: argument coercion is keyed on tool names, not schemas -/

/-- C6 counterexample: the maths server's `add` tool declares its parameter
`a` as a number, the numeric string parses, and yet the executor dispatches
`add` with the string `50` unchanged — the schema-driven coercion the claim
asserts does not happen for tools outside the hard-coded name list. -/
theorem coercion_schema_counterexample :
    (∃ ts ∈ mathServerTools, ts.tname = "add" ∧ ToolParam.mk "a" "number" ∈ ts.params) ∧
    envFx.parseNum "50" = some 50 ∧
    fixToolArgs envFx "add" [("a", JVal.str "50")] = [("a", JVal.str "50")] ∧
    JVal.str "50" ≠ JVal.num 50 := by
  refine ⟨by decide, by decide, by decide, by decide⟩

/-- C6 amended: coercion in `safe_tool_node` is tool-specific.  Arguments of
any tool outside `add_expense` / `list_expenses` / `summarize` /
`net_cashflow` pass through unchanged; for `add_expense` a parseable string
`amount` is parsed to a number and an unparseable one passes through
unchanged; for the three query tools a string date parameter equal to the
literal `today` is resolved to the current date. -/
theorem coercion_tool_specific (env : ToolEnv) :
    (∀ (name : String) (args : List (String × JVal)),
      name ∉ coercionTools → fixToolArgs env name args = args) ∧
    (∀ s q, env.parseNum s = some q →
      fixToolArgs env "add_expense" [("amount", JVal.str s)] = [("amount", JVal.num q)]) ∧
    (∀ s, env.parseNum s = none →
      fixToolArgs env "add_expense" [("amount", JVal.str s)] = [("amount", JVal.str s)]) ∧
    (∀ name k,
      (name = "list_expenses" ∨ name = "summarize" ∨ name = "net_cashflow") →
      (k = "start_date" ∨ k = "end_date" ∨ k = "date") →
      fixToolArgs env name [(k, JVal.str "today")] = [(k, JVal.str env.today)]) := by
  refine ⟨?_, ?_, ?_, ?_⟩
  · intro name args hn
    simp only [coercionTools, List.mem_cons, List.not_mem_nil, or_false, not_or] at hn
    obtain ⟨h1, h2, h3, h4⟩ := hn
    unfold fixToolArgs
    rw [if_neg h1, if_neg (by simp [h2, h3, h4])]
  · intro s q hq
    have h0 : fixToolArgs env "add_expense" [("amount", JVal.str s)] =
        [match env.parseNum s with
         | some q2 => ("amount", JVal.num q2)
         | none => ("amount", JVal.str s)] := rfl
    rw [h0, hq]
  · intro s hq
    have h0 : fixToolArgs env "add_expense" [("amount", JVal.str s)] =
        [match env.parseNum s with
         | some q2 => ("amount", JVal.num q2)
         | none => ("amount", JVal.str s)] := rfl
    rw [h0, hq]
  · intro name k hn hk
    rcases hn with rfl | rfl | rfl <;> rcases hk with rfl | rfl | rfl <;> rfl

/-- Witness for C6 amended: a `rag_tool` argument passes through, a string
`add_expense` amount is parsed, an unparseable amount passes through, and a
`today` date is resolved. -/
theorem coercion_tool_specific_witness :
    fixToolArgs envFx "rag_tool" [("query", JVal.str "hello")] =
      [("query", JVal.str "hello")] ∧
    fixToolArgs envFx "add_expense" [("amount", JVal.str "50")] =
      [("amount", JVal.num 50)] ∧
    fixToolArgs envFx "add_expense" [("amount", JVal.str "abc")] =
      [("amount", JVal.str "abc")] ∧
    fixToolArgs envFx "list_expenses" [("start_date", JVal.str "today")] =
      [("start_date", JVal.str "2026-10-12")] :=
  ⟨(coercion_tool_specific envFx).1 "rag_tool" _ (by decide),
   (coercion_tool_specific envFx).2.1 "50" 50 (by decide),
   (coercion_tool_specific envFx).2.2.1 "abc" (by decide),
   ((coercion_tool_specific envFx).2.2.2 "list_expenses" "start_date"
      (Or.inl rfl) (Or.inl rfl)).trans (by decide)⟩

/-! ### Claim C7: the no-document sentinel -/

/-- `process_document` for one thread never touches another thread's
retriever entry. -/
theorem processDocument_retrievers_ne (load : String → Loaded) (venv : VectorEnv)
    (st : RagState) (path tid t : String) (h : tid ≠ t) :
    mapFind (processDocument load venv st path tid).2.retrievers t =
      mapFind st.retrievers t := by
  cases hl : load path with
  | err m => simp only [processDocument, hl]
  | ok pages chunks =>
    cases venv with
    | bothFail => simp only [processDocument, hl]
    | pg =>
      simp only [processDocument, hl]
      exact mapFind_insert_ne _ _ _ _ (Ne.symm h)
    | faissFallback =>
      simp only [processDocument, hl]
      exact mapFind_insert_ne _ _ _ _ (Ne.symm h)

/-- A run of ingests that never names thread `t` leaves `t` unregistered. -/
theorem runIngests_no_thread (load : String → Loaded) (t : String) :
    ∀ (events : List IngestEvent) (st : RagState),
      (∀ e ∈ events, e.thread_id ≠ t) →
      mapFind st.retrievers t = none →
      mapFind (runIngests load events st).retrievers t = none
  | [], _, _, h0 => h0
  | e :: es, st, hev, h0 =>
    runIngests_no_thread load t es _
      (fun x hx => hev x (List.mem_cons_of_mem e hx))
      ((processDocument_retrievers_ne load e.venv st e.path e.thread_id t
        (hev e (List.mem_cons_self e es))).trans h0)

/-- C7: querying a thread id with no prior ingest — or after a remove —
returns the well-formed no-document sentinel instead of raising or erroring
(the spec-modelled `remove` deletes the thread's registry entries). -/
theorem no_document_sentinel (load : String → Loaded) (rank : String → Chunk → Nat)
    (events : List IngestEvent) (t q : String) (st : RagState)
    (hnone : ∀ e ∈ events, e.thread_id ≠ t) :
    ragTool rank (runIngests load events emptyRagState) t q = noDocSentinel ∧
    ragTool rank (removeThread st t) t q = noDocSentinel := by
  constructor
  · have hf : mapFind (runIngests load events emptyRagState).retrievers t = none :=
      runIngests_no_thread load t events emptyRagState hnone rfl
    unfold ragTool
    rw [hf]
  · unfold ragTool removeThread
    rw [mapFind_erase_self]

/-- Witness for C7: thread `C` never ingested anything, and a removed thread
also gets the sentinel. -/
theorem no_document_sentinel_witness :
    ragTool rankFx (runIngests loadFx eventsFx emptyRagState) "C" "q" = noDocSentinel ∧
    ragTool rankFx (removeThread emptyRagState "C") "C" "q" = noDocSentinel :=
  no_document_sentinel loadFx rankFx eventsFx "C" "q" emptyRagState
    (by
      intro e he
      fin_cases he <;> decide)

/-! ### Claim C8: the full-text fallback of the stream bridge -/

/-- C8 counterexample: a turn with no incremental deltas synthesizes the
chunked full text, but nothing follows the chunks — the generator closes
without emitting any terminal frame, so the synthesized sequence is not
`followed by the terminal frame` as claimed. -/
theorem stream_fallback_no_terminal_frame :
    streamGenerator [StreamEvent.chainEnd [Msg.ai "hi!" []]] none (.error "down") =
      [Frame.textDelta "hi!"] ∧
    ∀ f ∈ streamGenerator [StreamEvent.chainEnd [Msg.ai "hi!" []]] none (.error "down"),
      f.isFinish = false := by
  refine ⟨by decide, by decide⟩

/-- C8 amended: when no text delta was streamed and the final LangGraph
output holds assistant text, the bridge emits exactly the synthesized
sequence of fixed-size chunks of that text (each piece at most `chunk_size`
characters, concatenating back to the full response) and then closes the
stream — without an explicit terminal frame. -/
theorem stream_fallback_chunking (events : List StreamEvent)
    (emergency : Except String (List Msg)) (c : String)
    (hnc : hasContent events = false)
    (hc : lastNonemptyAi (finalMessagesOf events) = some c) :
    streamGenerator events none emergency = eventFrames events ++ chunkFrames c ∧
    (chunkList c.data).flatten = c.data ∧
    (∀ p ∈ chunkList c.data, p.length ≤ chunkSize) ∧
    (∀ f ∈ streamGenerator events none emergency, f.isFinish = false) := by
  have h1 : streamGenerator events none emergency = eventFrames events ++ chunkFrames c := by
    simp only [streamGenerator, hnc, hc, Bool.false_eq_true, if_false]
  refine ⟨h1, chunkList_flatten c.data, fun p hp => chunkList_piece_le c.data p hp, ?_⟩
  intro f hf
  rw [h1] at hf
  rcases List.mem_append.mp hf with h | h
  · exact eventFrames_no_finish events f h
  · exact chunkFrames_no_finish c f h

set_option maxRecDepth 4096 in
/-- Witness for C8 amended: tool frames followed by the synthesized chunked
text of the final assistant message. -/
theorem stream_fallback_chunking_witness :
    streamGenerator
        [StreamEvent.toolStart "r1" "search_tool" "q",
         StreamEvent.toolEnd "r1" "res",
         StreamEvent.chainEnd [Msg.ai "done" []]]
        none (.error "down") =
      [Frame.toolStart "r1" "search_tool" "q", Frame.toolResult "r1" "res",
       Frame.textDelta "done"] :=
  (stream_fallback_chunking
      [StreamEvent.toolStart "r1" "search_tool" "q",
       StreamEvent.toolEnd "r1" "res",
       StreamEvent.chainEnd [Msg.ai "done" []]]
      (.error "down") "done"
      (by decide) (by decide)).1.trans (by decide)

/-! ### Claim C9: error turns terminate the stream with one error frame -/

/-- C9: a turn that ends in an unrecoverable error yields the frames already
produced followed by exactly one error text delta, which is the last frame —
the generator is a total function into finite frame lists, so the stream
always terminates, on success and failure alike. -/
theorem stream_error_single_frame (events : List StreamEvent) (e : String)
    (emergency : Except String (List Msg)) :
    streamGenerator events (some e) emergency =
      eventFrames events ++ [Frame.textDelta (errorFrameText e)] ∧
    (streamGenerator events (some e) emergency).getLast? =
      some (Frame.textDelta (errorFrameText e)) := by
  refine ⟨rfl, ?_⟩
  have h1 : streamGenerator events (some e) emergency =
      eventFrames events ++ [Frame.textDelta (errorFrameText e)] := rfl
  rw [h1]
  exact List.getLast?_concat _

/-! ### Claim C10: a failed ingest never touches the registries -/

/-- C10: whenever `process_document` reports failure, both per-thread
registries — the retriever map and the document-info map — are exactly what
they were before the call, for every thread id. -/
theorem failed_ingest_preserves_registries (load : String → Loaded) (venv : VectorEnv)
    (st : RagState) (path t : String) (r : ProcessResult) (st2 : RagState)
    (h : processDocument load venv st path t = (r, st2))
    (hfail : r.isSuccess = false) :
    st2.retrievers = st.retrievers ∧ st2.docInfo = st.docInfo := by
  cases hl : load path with
  | err m =>
    simp only [processDocument, hl] at h
    injection h with h1 h2
    subst h2
    exact ⟨rfl, rfl⟩
  | ok pages chunks =>
    cases venv with
    | bothFail =>
      simp only [processDocument, hl] at h
      injection h with h1 h2
      subst h2
      exact ⟨rfl, rfl⟩
    | pg =>
      simp only [processDocument, hl] at h
      injection h with h1 h2
      subst h1
      simp [ProcessResult.isSuccess] at hfail
    | faissFallback =>
      simp only [processDocument, hl] at h
      injection h with h1 h2
      subst h1
      simp [ProcessResult.isSuccess] at hfail

/-- Witness for C10: ingesting a path whose load raises fails and leaves the
empty registries empty. -/
theorem failed_ingest_preserves_registries_witness :
    (processDocument loadFx .pg emptyRagState "missing.pdf" "t").2.retrievers =
      emptyRagState.retrievers ∧
    (processDocument loadFx .pg emptyRagState "missing.pdf" "t").2.docInfo =
      emptyRagState.docInfo :=
  failed_ingest_preserves_registries loadFx .pg emptyRagState "missing.pdf" "t"
    (processDocument loadFx .pg emptyRagState "missing.pdf" "t").1
    (processDocument loadFx .pg emptyRagState "missing.pdf" "t").2
    rfl (by decide)

end Sentinel
